import Mathlib

/-!
Verification of the wasabi kernel core against its specification.

Shallow embedding of the relevant program parts:
* the xHCI TRB rings (`os/src/xhci/ring.rs`): `TrbRing`, `CommandRing.push`,
  `TransferRing.dequeue_trb`;
* the first-fit heap allocator (`os/src/first_fit_allocator.rs`):
  `Header.provide`, `FirstFitAllocator::alloc_with_options`;
* the USB HID keyboard usage-id translation (`os/src/usb_hid_keyboard.rs`);
* the xHCI event-wait machinery (`os/src/xhci/future.rs`);
* the PCI bus/device/function encoding (`os/src/pci.rs`);
* the DHCP reply handling of the network manager (`os/src/net/manager.rs`);
* the graphics `draw_point` path (`os/src/graphics.rs`).

Rust `u32`/`u64`/`usize` values are embedded as `Nat` with explicit `% 2 ^ 32`
or `% 2 ^ 64` reductions where the machine width matters; fallible Rust code
returning `Result` is embedded as `Except String` or as a state paired with an
optional error message.
-/

set_option maxRecDepth 100000

namespace Wasabi

/-- Decidable equality for `Except`, needed to evaluate embedded fallible
operations on concrete inputs. -/
instance instDecEqExcept {ε α : Type} [DecidableEq ε] [DecidableEq α] :
    DecidableEq (Except ε α) := fun x y =>
  match x, y with
  | .ok a, .ok b =>
    if h : a = b then .isTrue (by rw [h]) else .isFalse (fun he => by cases he; exact h rfl)
  | .error a, .error b =>
    if h : a = b then .isTrue (by rw [h]) else .isFalse (fun he => by cases he; exact h rfl)
  | .ok _, .error _ => .isFalse (fun he => by cases he)
  | .error _, .ok _ => .isFalse (fun he => by cases he)

/-! ## Bitmask arithmetic

Rust writes masks like `x & !(align - 1)` (with `!` the 64-bit complement)
and `x & 0xFF00`.  Over `Nat` these are `Nat.land x (2 ^ 64 - align)` and
`Nat.land x (2 ^ 16 - 2 ^ 8)`; the lemmas below turn such window masks into
division and modulus. -/

/-- A window mask keeps the bits in `[j, w)`:
`x &&& (2 ^ w - 2 ^ j) = 2 ^ j * (x % 2 ^ w / 2 ^ j)`. -/
theorem land_two_pow_window (x w j : Nat) (hj : j ≤ w) :
    x &&& (2 ^ w - 2 ^ j) = 2 ^ j * (x % 2 ^ w / 2 ^ j) := by
  have hmask : 2 ^ w - 2 ^ j = 2 ^ j * (2 ^ (w - j) - 1) := by
    have h1 : 2 ^ j * 2 ^ (w - j) = 2 ^ w := by
      rw [← pow_add]
      congr 1
      omega
    rw [← Nat.pred_eq_sub_one, Nat.mul_pred, h1]
  apply Nat.eq_of_testBit_eq
  intro i
  rw [Nat.testBit_land, hmask, Nat.testBit_mul_pow_two, Nat.testBit_mul_pow_two,
      Nat.testBit_two_pow_sub_one, ← Nat.shiftRight_eq_div_pow, Nat.testBit_shiftRight,
      Nat.testBit_mod_two_pow]
  by_cases hij : j ≤ i
  · have hji : j + (i - j) = i := by omega
    rw [hji]
    by_cases hiw : i < w
    · simp [ge_iff_le, hij, hiw, show i - j < w - j by omega, Bool.and_comm]
    · simp [ge_iff_le, hij, hiw, show ¬(i - j < w - j) by omega]
  · simp [ge_iff_le, hij]

/-- The window mask as a difference of moduli:
`x &&& (2 ^ w - 2 ^ j) = x % 2 ^ w - x % 2 ^ j`. -/
theorem land_two_pow_window_sub (x w j : Nat) (hj : j ≤ w) :
    x &&& (2 ^ w - 2 ^ j) = x % 2 ^ w - x % 2 ^ j := by
  rw [land_two_pow_window x w j hj,
      show x % 2 ^ j = x % 2 ^ w % 2 ^ j from (Nat.mod_mod_of_dvd x (pow_dvd_pow 2 hj)).symm]
  have h := Nat.div_add_mod (x % 2 ^ w) (2 ^ j)
  omega

/-- Masking with a window whose low edge is `2 ^ j` yields a multiple of any
`2 ^ k` with `k ≤ j`. -/
theorem dvd_land_two_pow (x w j k : Nat) (hkj : k ≤ j) :
    2 ^ k ∣ x &&& (2 ^ w - 2 ^ j) := by
  by_cases hj : j ≤ w
  · rw [land_two_pow_window x w j hj]
    exact Dvd.dvd.mul_right (pow_dvd_pow 2 hkj) _
  · have hz : 2 ^ w - 2 ^ j = 0 := by
      have := Nat.pow_le_pow_right (show 0 < 2 by omega) (show w ≤ j by omega)
      omega
    rw [hz, Nat.and_zero]
    exact Dvd.intro 0 rfl

/-- Aligning a `2 ^ j`-aligned, in-range value down to `2 ^ j` is the
identity: `x &&& (2 ^ w - 2 ^ j) = x` when `2 ^ j ∣ x` and `x < 2 ^ w`. -/
theorem land_two_pow_window_of_dvd (x w j : Nat) (hj : j ≤ w) (hdvd : 2 ^ j ∣ x)
    (hx : x < 2 ^ w) :
    x &&& (2 ^ w - 2 ^ j) = x := by
  rw [land_two_pow_window_sub x w j hj, Nat.mod_eq_of_lt hx,
      Nat.mod_eq_zero_of_dvd hdvd, Nat.sub_zero]

/-! ## TRB model

`GenericTrbEntry` is the 16-byte xHCI Transfer Request Block.
Modelled from the spec: `os/src/xhci/trb.rs` is not under `src/`; the spec
describes a TRB as `{data: u64, status: u32, control: u32}` where `control`
encodes the TRB type and a single cycle-state bit.  Following the xHCI layout
the cycle bit is bit 0 of `control`, the TRB type lives in bits 10..15 and the
slot id in bits 24..31.  `TrbType::Link` is 6. -/

structure GenericTrbEntry where
  data : Nat
  status : Nat
  control : Nat
deriving DecidableEq, Repr

def zeroTrb : GenericTrbEntry := { data := 0, status := 0, control := 0 }

def GenericTrbEntry.cycle_state (t : GenericTrbEntry) : Bool := t.control % 2 == 1

def GenericTrbEntry.set_cycle_state (b : Bool) (t : GenericTrbEntry) : GenericTrbEntry :=
  { t with control := t.control / 2 * 2 + (if b then 1 else 0) }

def GenericTrbEntry.trb_type (t : GenericTrbEntry) : Nat := t.control / 2 ^ 10 % 2 ^ 6

def GenericTrbEntry.slot_id (t : GenericTrbEntry) : Nat := t.control / 2 ^ 24 % 2 ^ 8

def TrbType.Link : Nat := 6

/-- Modelled from the spec: a Link TRB pointing back at the ring (its `data`
holds the ring's physical address, its type is `Link`, its cycle bit starts
at 0 like the rest of the zero-initialised ring). -/
def GenericTrbEntry.trb_link (ring_addr : Nat) : GenericTrbEntry :=
  { data := ring_addr, status := 0, control := TrbType.Link * 2 ^ 10 }

/-! ## TrbRing (`os/src/xhci/ring.rs`, lines 20-85)

A fixed array of 16 TRBs plus a `current_index`.  `IoBox::new` zero-initialises
the ring. -/

structure TrbRing where
  trb : List GenericTrbEntry
  current_index : Nat
deriving DecidableEq, Repr

def TrbRing.NUM_TRB : Nat := 16

def TrbRing.new : TrbRing :=
  { trb := List.replicate TrbRing.NUM_TRB zeroTrb, current_index := 0 }

def TrbRing.num_trbs (_ : TrbRing) : Nat := TrbRing.NUM_TRB

def TrbRing.current (r : TrbRing) : GenericTrbEntry :=
  r.trb.getD r.current_index zeroTrb

/-- `TrbRing::advance_index` (ring.rs lines 41-48): refuse if the current
TRB already carries `new_cycle`, else stamp `new_cycle` on it and advance. -/
def TrbRing.advance_index (r : TrbRing) (new_cycle : Bool) : Except String TrbRing :=
  if r.current.cycle_state == new_cycle then
    .error "cycle state does not change"
  else
    .ok { trb := r.trb.set r.current_index (GenericTrbEntry.set_cycle_state new_cycle r.current),
          current_index := (r.current_index + 1) % r.trb.length }

/-- `TrbRing::advance_index_notoggle` (ring.rs lines 49-55). -/
def TrbRing.advance_index_notoggle (r : TrbRing) (cycle_ours : Bool) : Except String TrbRing :=
  if r.current.cycle_state != cycle_ours then
    .error "cycle state mismatch"
  else
    .ok { r with current_index := (r.current_index + 1) % r.trb.length }

/-- `TrbRing::write` (ring.rs lines 71-80). -/
def TrbRing.write (r : TrbRing) (index : Nat) (t : GenericTrbEntry) : Except String TrbRing :=
  if index < r.trb.length then .ok { r with trb := r.trb.set index t }
  else .error "TrbRing Out of Range"

/-- `TrbRing::write_current` (ring.rs lines 81-84): writing at the current
index never fails. -/
def TrbRing.write_current (r : TrbRing) (t : GenericTrbEntry) : TrbRing :=
  { r with trb := r.trb.set r.current_index t }

/-! ## CommandRing (`os/src/xhci/ring.rs`, lines 87-127) -/

structure CommandRing where
  ring : TrbRing
  cycle_state_ours : Bool
deriving DecidableEq, Repr

/-- `CommandRing::default` (ring.rs lines 91-103): a fresh zeroed ring with
`cycle_state_ours = false` and a Link TRB written into the last slot.
The ring's physical base address plays no role in the push logic and is
fixed to 0 here. -/
def CommandRing.default : CommandRing :=
  { ring := { TrbRing.new with
              trb := TrbRing.new.trb.set (TrbRing.NUM_TRB - 1) (GenericTrbEntry.trb_link 0) },
    cycle_state_ours := false }

/-- `CommandRing::push` (ring.rs lines 108-126).  Returns the physical address
of the written slot (modelled as `16 * slot_index` relative to base 0)
together with the updated ring. -/
def CommandRing.push (c : CommandRing) (src : GenericTrbEntry) :
    Except String (Nat × CommandRing) :=
  if c.ring.current.cycle_state != c.cycle_state_ours then
    .error "Command Ring is Full"
  else
    let src := GenericTrbEntry.set_cycle_state c.cycle_state_ours src
    let dst_ptr := 16 * c.ring.current_index
    let r := c.ring.write_current src
    match r.advance_index (!c.cycle_state_ours) with
    | .error e => .error e
    | .ok r =>
      if r.current.trb_type == TrbType.Link then
        match r.advance_index (!c.cycle_state_ours) with
        | .error e => .error e
        | .ok r2 => .ok (dst_ptr, { ring := r2, cycle_state_ours := !c.cycle_state_ours })
      else
        .ok (dst_ptr, { ring := r, cycle_state_ours := c.cycle_state_ours })

/-- `n` successive pushes of the same TRB, stopping at the first error. -/
def pushN (t : GenericTrbEntry) : Nat → CommandRing → Except String CommandRing
  | 0, c => .ok c
  | n + 1, c =>
    match c.push t with
    | .ok pc => pushN t n pc.2
    | .error e => .error e

/-- The `cycle_state_ours` flag after `n` pushes of the zero TRB into a fresh
Command ring, or `none` if some push failed. -/
def oursAfter (n : Nat) : Option Bool :=
  match pushN zeroTrb n CommandRing.default with
  | .ok c => some c.cycle_state_ours
  | .error _ => none

/-! ## TransferRing (`os/src/xhci/ring.rs`, lines 132-208)

Only the state touched by `dequeue_trb` is modelled: the ring, the producer
cycle state and the dequeue index.  The per-slot DMA buffers are raw pointers
never read or written by `dequeue_trb`.  TRB slot addresses are
`base + 16 * index` where `base` is the ring's physical base address. -/

structure TransferRing where
  ring : TrbRing
  cycle_state_ours : Bool
  dequeue_index : Nat
deriving DecidableEq, Repr

/-- `TransferRing::dequeue_trb` (ring.rs lines 188-204).  The imperative code
mutates in place, so the model returns the state as mutated so far, paired
with the error message if any step failed. -/
def TransferRing.dequeue_trb (base : Nat) (s : TransferRing) (trb_ptr : Nat) :
    TransferRing × Option String :=
  if base + 16 * s.dequeue_index != trb_ptr then
    (s, some "unexpected trb ptr")
  else
    let s1 : TransferRing :=
      { s with dequeue_index := (s.dequeue_index + 1) % (s.ring.num_trbs - 1) }
    match s1.ring.advance_index (!s1.cycle_state_ours) with
    | .error e => (s1, some e)
    | .ok r =>
      if r.current.trb_type == TrbType.Link then
        match r.advance_index (!s1.cycle_state_ours) with
        | .error e => ({ s1 with ring := r }, some e)
        | .ok r2 =>
          ({ ring := r2, cycle_state_ours := !s1.cycle_state_ours,
             dequeue_index := s1.dequeue_index }, none)
      else
        ({ s1 with ring := r }, none)

theorem advance_index_ok {r r2 : TrbRing} {b : Bool} (h : r.advance_index b = .ok r2) :
    r2.current_index = (r.current_index + 1) % r.trb.length
    ∧ r2.trb.length = r.trb.length := by
  unfold TrbRing.advance_index at h
  split at h
  · cases h
  · cases h
    exact ⟨rfl, by simp⟩

/-- C10: `TransferRing::dequeue_trb` is atomic on its pointer-mismatch error:
if the given `trb_ptr` differs from the address of the TRB at the current
`dequeue_index`, it returns the error "unexpected trb ptr" and the entire
ring state (dequeue index, enqueue index, cycle state, and all TRB slots) is
unchanged; only when the pointer matches does it advance the dequeue index
(mod 15, skipping the Link slot) and, when the cycle checks succeed, the
enqueue index (by one, or by two when it skips the Link TRB). -/
theorem C10_dequeue_trb_atomic (base trb_ptr : Nat) (s : TransferRing) :
    (base + 16 * s.dequeue_index ≠ trb_ptr →
      TransferRing.dequeue_trb base s trb_ptr = (s, some "unexpected trb ptr"))
    ∧ (base + 16 * s.dequeue_index = trb_ptr →
        (TransferRing.dequeue_trb base s trb_ptr).1.dequeue_index
            = (s.dequeue_index + 1) % (TrbRing.NUM_TRB - 1)
        ∧ ((TransferRing.dequeue_trb base s trb_ptr).2 = none →
            (TransferRing.dequeue_trb base s trb_ptr).1.ring.current_index
                = (s.ring.current_index + 1) % s.ring.trb.length
            ∨ (TransferRing.dequeue_trb base s trb_ptr).1.ring.current_index
                = (s.ring.current_index + 2) % s.ring.trb.length)) := by
  constructor
  · intro h
    have hb : (base + 16 * s.dequeue_index != trb_ptr) = true := by
      simpa [bne_iff_ne] using h
    simp [TransferRing.dequeue_trb, hb]
  · intro h
    have hb : (base + 16 * s.dequeue_index != trb_ptr) = false := by
      simp [h]
    simp only [TransferRing.dequeue_trb, hb, Bool.false_eq_true, if_false]
    cases hadv : TrbRing.advance_index
        { s with dequeue_index := (s.dequeue_index + 1) % (s.ring.num_trbs - 1) : TransferRing }.ring
        (!s.cycle_state_ours) with
    | error e =>
      simp [hadv, TrbRing.num_trbs]
    | ok r =>
      have h1 := advance_index_ok hadv
      by_cases hl : (r.current.trb_type == TrbType.Link) = true
      · simp only [hadv, hl, if_true]
        cases hadv2 : r.advance_index (!s.cycle_state_ours) with
        | error e => simp [TrbRing.num_trbs]
        | ok r2 =>
          have h2 := advance_index_ok hadv2
          refine ⟨by simp [TrbRing.num_trbs], fun _ => Or.inr ?_⟩
          simp only [h2.1, h1.1, h1.2]
          rw [Nat.mod_add_mod]
      · simp only [hadv, hl, if_false]
        exact ⟨by simp [TrbRing.num_trbs], fun _ => Or.inl h1.1⟩

/-- A concrete transfer ring: fresh zeroed ring, producer cycle `false`,
dequeue index 0. -/
def tr0 : TransferRing := { ring := TrbRing.new, cycle_state_ours := false, dequeue_index := 0 }

/-- C10 witness: at base 0 with `tr0`, a matching pointer (0) advances the
dequeue index to `(0 + 1) % 15`, and a mismatching pointer (5) yields the
"unexpected trb ptr" error. -/
theorem C10_dequeue_trb_atomic_witness :
    (TransferRing.dequeue_trb 0 tr0 0).1.dequeue_index = (0 + 1) % (TrbRing.NUM_TRB - 1)
    ∧ (TransferRing.dequeue_trb 0 tr0 5).2 = some "unexpected trb ptr" :=
  ⟨((C10_dequeue_trb_atomic 0 0 tr0).2 (by decide)).1,
   congrArg Prod.snd ((C10_dequeue_trb_atomic 0 5 tr0).1 (by decide))⟩

/-- C1 counterexample: the claim fails on the code.  After 15 pushes into a
fresh Command ring `cycle_state_ours` is already `true` — the flip happens at
the 15th push (the one that wraps over the Link TRB), so the 16th push does
not flip it — and the 17th push into a ring the controller has not drained
still succeeds instead of returning "Command Ring is Full". -/
theorem C1_command_ring_cycle_counterexample :
    oursAfter 15 = some true
    ∧ oursAfter 16 = some true
    ∧ (pushN zeroTrb 17 CommandRing.default).isOk = true := by decide

/-- C1 (amended): for a fresh Command ring (zero-initialized TRBs,
`cycle_state_ours = false`, Link TRB in the last slot), a push followed by 14
more pushes all succeed; the 15th push, which wraps over the Link TRB, flips
`cycle_state_ours` from `false` to `true`; and further pushes into the ring
the controller has not drained (the 16th and 17th) also succeed — `push`
does not return "Command Ring is Full", because the current slot's cycle bit
always equals `cycle_state_ours` again by the time the index returns to it. -/
theorem C1_command_ring_cycle_amended :
    (pushN zeroTrb 15 CommandRing.default).isOk = true
    ∧ oursAfter 14 = some false
    ∧ oursAfter 15 = some true
    ∧ oursAfter 16 = some true
    ∧ (pushN zeroTrb 17 CommandRing.default).isOk = true := by decide

/-! ## USB HID keyboard usage-id translation
(`os/src/usb_hid_keyboard.rs`, lines 128-154) -/

inductive KeyEvent where
  | None
  | Char (c : Char)
  | Enter
deriving DecidableEq, Repr

/-- `usage_id_to_char` (usb_hid_keyboard.rs lines 145-154).  The Rust match
arms are `0`, `4..=30`, `40`, and a formatted error otherwise; the char arm
computes `(b'a' + usage_id - 4) as char`. -/
def usage_id_to_char (usage_id : Nat) : Except String KeyEvent :=
  if usage_id = 0 then .ok .None
  else if 4 ≤ usage_id ∧ usage_id ≤ 30 then .ok (.Char (Char.ofNat (97 + usage_id - 4)))
  else if usage_id = 40 then .ok .Enter
  else .error ("Unhandled USB HID Keyboard Usage ID " ++ toString usage_id)

/-- The amended usage-id mapping, stated in the claim's style: 0 maps to no
key; 4..=29 map to the letters a..z in order; 30 maps to the character after
z (code 123, not a digit); 40 maps to Enter; every other usage id — in
particular 31..=39, so digits are not handled — maps to a diagnostic error. -/
def usage_id_map_amended (usage_id : Nat) : Except String KeyEvent :=
  if usage_id = 0 then .ok .None
  else if 4 ≤ usage_id ∧ usage_id ≤ 29 then .ok (.Char (Char.ofNat (97 + (usage_id - 4))))
  else if usage_id = 30 then .ok (.Char (Char.ofNat 123))
  else if usage_id = 40 then .ok .Enter
  else .error ("Unhandled USB HID Keyboard Usage ID " ++ toString usage_id)

/-- C4 counterexample: the claim says usage ids 30..=39 map to digit
characters, but the code returns a diagnostic error for 31 and the character
after z (code 123) for 30. -/
theorem C4_usage_id_counterexample :
    usage_id_to_char 31 = .error "Unhandled USB HID Keyboard Usage ID 31"
    ∧ usage_id_to_char 30 = .ok (.Char (Char.ofNat 123)) := by decide

/-- C4 (amended): the keyboard usage-id translation maps 0 to no key, every
usage id in 4..=29 to the letters a..z in order, 30 to the character after z,
40 to Enter, and every other u8 usage id — including 31..=39, so digits are
not handled — to a diagnostic error. -/
theorem C4_usage_id_to_char_amended :
    ∀ usage_id : Fin 256, usage_id_to_char usage_id.val = usage_id_map_amended usage_id.val := by
  decide

/-! ## Event-wait matching (`os/src/xhci/future.rs`, lines 19-59) -/

structure EventWaitCond where
  trb_type : Nat
  trb_addr : Option Nat
  slot : Option Nat
deriving DecidableEq, Repr

structure EventWaitInfo where
  cond : EventWaitCond
  fulfilled : Bool
  event_trb : GenericTrbEntry
deriving DecidableEq, Repr

/-- `EventWaitInfo::matches` (future.rs lines 33-48): the TRB type must equal
the waiter's; if the waiter specified a slot it must equal the TRB's slot id;
if it specified a TRB address it must equal the TRB's data field. -/
def EventWaitInfo.matches (w : EventWaitInfo) (trb : GenericTrbEntry) : Bool :=
  if trb.trb_type != w.cond.trb_type then false
  else if (match w.cond.slot with
           | some slot => trb.slot_id != slot
           | none => false) then false
  else if (match w.cond.trb_addr with
           | some trb_addr => trb.data != trb_addr
           | none => false) then false
  else true

/-- A waiter on `{type = 33 (CommandCompletionEvent), slot = some 5,
trb_addr = some 4096}`. -/
def wX : EventWaitInfo :=
  { cond := { trb_type := 33, trb_addr := some 4096, slot := some 5 },
    fulfilled := false, event_trb := zeroTrb }

/-- A TRB carrying exactly type 33, slot 5, data 4096. -/
def trbX : GenericTrbEntry := { data := 4096, status := 0, control := 33 * 2 ^ 10 + 5 * 2 ^ 24 }

def trbWrongType : GenericTrbEntry := { trbX with control := 32 * 2 ^ 10 + 5 * 2 ^ 24 }

def trbWrongSlot : GenericTrbEntry := { trbX with control := 33 * 2 ^ 10 + 6 * 2 ^ 24 }

def trbWrongAddr : GenericTrbEntry := { trbX with data := 4097 }

/-- C5: a waiter matches a popped TRB iff the TRB's type equals the waiter's
required type, its slot id equals the waiter's slot whenever one was
specified, and its data equals the waiter's TRB address whenever one was
specified; in particular the waiter `{type = 33, slot = some 5,
trb_addr = some 4096}` matches the TRB with exactly those values, and a TRB
differing in any one of those fields does not match. -/
theorem C5_event_wait_matches_iff :
    (∀ (w : EventWaitInfo) (trb : GenericTrbEntry),
        w.matches trb = true ↔
          (trb.trb_type = w.cond.trb_type
           ∧ (∀ s, w.cond.slot = some s → trb.slot_id = s)
           ∧ (∀ a, w.cond.trb_addr = some a → trb.data = a)))
    ∧ (wX.matches trbX = true
       ∧ wX.matches trbWrongType = false
       ∧ wX.matches trbWrongSlot = false
       ∧ wX.matches trbWrongAddr = false) := by
  constructor
  · intro w trb
    unfold EventWaitInfo.matches
    cases hs : w.cond.slot <;> cases ha : w.cond.trb_addr <;>
      simp [bne_iff_ne]
  · decide

/-- C5 witness: the general characterisation applied to the concrete waiter
and its exactly-matching TRB. -/
theorem C5_event_wait_matches_iff_witness :
    trbX.trb_type = wX.cond.trb_type ∧ trbX.data = 4096 :=
  ⟨((C5_event_wait_matches_iff.1 wX trbX).mp (by decide)).1,
   ((C5_event_wait_matches_iff.1 wX trbX).mp (by decide)).2.2 4096 rfl⟩

/-! ## EventFuture::poll (`os/src/xhci/future.rs`, lines 129-142)

The poll body depends only on the future's deadline (`time_out`), the HPET
main counter read at poll time, the waiter's `fulfilled` flag, and the stored
event TRB, so it is embedded as a pure function of those four values. -/

inductive PollState (α : Type) where
  | Ready (v : α)
  | Pending
deriving DecidableEq, Repr

def EventFuture.poll (time_out main_counter : Nat) (fulfilled : Bool)
    (event_trb : GenericTrbEntry) : PollState (Except String (Option GenericTrbEntry)) :=
  if time_out < main_counter then .Ready (.ok none)
  else if fulfilled then .Ready (.ok (some event_trb)) else .Pending

/-- C6: polling an `EventFuture` returns `Ready (Ok none)` when the HPET main
counter exceeds the deadline, `Ready (Ok (some trb))` with the stored TRB when
the deadline has not passed and the waiter is fulfilled, and `Pending`
otherwise; a timeout is delivered as `Ready none`, never as an error value. -/
theorem C6_event_future_poll (time_out main_counter : Nat) (fulfilled : Bool)
    (event_trb : GenericTrbEntry) :
    (time_out < main_counter →
        EventFuture.poll time_out main_counter fulfilled event_trb = .Ready (.ok none))
    ∧ (main_counter ≤ time_out → fulfilled = true →
        EventFuture.poll time_out main_counter fulfilled event_trb
          = .Ready (.ok (some event_trb)))
    ∧ (main_counter ≤ time_out → fulfilled = false →
        EventFuture.poll time_out main_counter fulfilled event_trb = .Pending)
    ∧ (∀ e : String,
        EventFuture.poll time_out main_counter fulfilled event_trb ≠ .Ready (.error e)) := by
  refine ⟨fun h => by simp [EventFuture.poll, h],
          fun h hf => by simp [EventFuture.poll, Nat.not_lt.mpr h, hf],
          fun h hf => by simp [EventFuture.poll, Nat.not_lt.mpr h, hf], ?_⟩
  intro e
  unfold EventFuture.poll
  by_cases h : time_out < main_counter <;> by_cases hf : fulfilled <;> simp [h, hf]

/-- C6 witness: the three poll outcomes at concrete counter values. -/
theorem C6_event_future_poll_witness :
    EventFuture.poll 100 101 false zeroTrb = .Ready (.ok none)
    ∧ EventFuture.poll 100 100 true zeroTrb = .Ready (.ok (some zeroTrb))
    ∧ EventFuture.poll 100 100 false zeroTrb = .Pending :=
  ⟨(C6_event_future_poll 100 101 false zeroTrb).1 (by decide),
   (C6_event_future_poll 100 100 true zeroTrb).2.1 (by decide) rfl,
   (C6_event_future_poll 100 100 false zeroTrb).2.2.1 (by decide) rfl⟩

/-! ## PCI BusDeviceFunction (`os/src/pci.rs`, lines 42-110) -/

structure BusDeviceFunction where
  id : Nat
deriving DecidableEq, Repr

def MASK_BUS : Nat := 0xFF00
def SHIFT_BUS : Nat := 8
def MASK_DEVICE : Nat := 0x00F8
def SHIFT_DEVICE : Nat := 3
def MASK_FUNCTION : Nat := 0x0007
def SHIFT_FUNCTION : Nat := 0

/-- `BusDeviceFunction::new` (pci.rs lines 53-62); the `as u16` cast is the
`% 2 ^ 16` reduction. -/
def BusDeviceFunction.new (bus device function : Nat) : Except String BusDeviceFunction :=
  if 256 ≤ bus ∨ 32 ≤ device ∨ 8 ≤ function then
    .error "PciBusDeviceFunctionOutOfRange"
  else
    .ok { id := (bus <<< SHIFT_BUS ||| device <<< SHIFT_DEVICE |||
                 function <<< SHIFT_FUNCTION) % 2 ^ 16 }

def BusDeviceFunction.bus (b : BusDeviceFunction) : Nat :=
  (b.id &&& MASK_BUS) >>> SHIFT_BUS

def BusDeviceFunction.device (b : BusDeviceFunction) : Nat :=
  (b.id &&& MASK_DEVICE) >>> SHIFT_DEVICE

def BusDeviceFunction.function (b : BusDeviceFunction) : Nat :=
  (b.id &&& MASK_FUNCTION) >>> SHIFT_FUNCTION

/-- `BusDeviceFunction::iter` unrolled: `BusDeviceFunctionIterator` (pci.rs
lines 95-110) starts at `next_id = 0` and yields ids up to and including
`0xffff`. -/
def BusDeviceFunction.iter : List BusDeviceFunction :=
  (List.range 65536).map fun i => { id := i }

def bdf_decode (r : Except String BusDeviceFunction) : Option (Nat × Nat × Nat) :=
  match r with
  | .ok b => some (b.bus, b.device, b.function)
  | .error _ => none

/-- C7: for every triple in `[0,256) × [0,32) × [0,8)` construction succeeds
and decoding returns exactly the input triple; any out-of-range triple makes
construction return the out-of-range error; and the iterator yields exactly
65536 distinct BDFs. -/
theorem bdf_encoded_id (bus device function : Nat) (hb : bus < 256) (hd : device < 32)
    (hf : function < 8) :
    (bus <<< SHIFT_BUS ||| device <<< SHIFT_DEVICE ||| function <<< SHIFT_FUNCTION) % 2 ^ 16
      = 2 ^ 8 * bus + (2 ^ 3 * device + function) := by
  have hsb : bus <<< SHIFT_BUS = 2 ^ 8 * bus := by
    simp [SHIFT_BUS, Nat.shiftLeft_eq, Nat.mul_comm]
  have hsd : device <<< SHIFT_DEVICE = 2 ^ 3 * device := by
    simp [SHIFT_DEVICE, Nat.shiftLeft_eq, Nat.mul_comm]
  have hsf : function <<< SHIFT_FUNCTION = function := by
    simp [SHIFT_FUNCTION, Nat.shiftLeft_eq]
  have hf3 : function < 2 ^ 3 := by simpa using hf
  have hr : 2 ^ 3 * device + function < 2 ^ 8 := by norm_num; omega
  rw [hsb, hsd, hsf, Nat.or_assoc, ← Nat.mul_add_lt_is_or hf3 device,
      ← Nat.mul_add_lt_is_or hr bus]
  exact Nat.mod_eq_of_lt (by norm_num; omega)

theorem bdf_round_trip_fields (bus device function : Nat) (hb : bus < 256) (hd : device < 32)
    (hf : function < 8) :
    bdf_decode (BusDeviceFunction.new bus device function) = some (bus, device, function) := by
  have hguard : ¬(256 ≤ bus ∨ 32 ≤ device ∨ 8 ≤ function) := by omega
  simp only [BusDeviceFunction.new, if_neg hguard, bdf_decode, BusDeviceFunction.bus,
    BusDeviceFunction.device, BusDeviceFunction.function,
    bdf_encoded_id bus device function hb hd hf]
  have e1 : ((2 ^ 8 * bus + (2 ^ 3 * device + function)) &&& MASK_BUS) >>> SHIFT_BUS = bus := by
    rw [show MASK_BUS = 2 ^ 16 - 2 ^ 8 by norm_num [MASK_BUS],
        land_two_pow_window_sub _ _ _ (by norm_num), Nat.shiftRight_eq_div_pow, SHIFT_BUS]
    norm_num
    omega
  have e2 : ((2 ^ 8 * bus + (2 ^ 3 * device + function)) &&& MASK_DEVICE) >>> SHIFT_DEVICE
      = device := by
    rw [show MASK_DEVICE = 2 ^ 8 - 2 ^ 3 by norm_num [MASK_DEVICE],
        land_two_pow_window_sub _ _ _ (by norm_num), Nat.shiftRight_eq_div_pow, SHIFT_DEVICE]
    norm_num
    omega
  have e3 : ((2 ^ 8 * bus + (2 ^ 3 * device + function)) &&& MASK_FUNCTION) >>> SHIFT_FUNCTION
      = function := by
    rw [show MASK_FUNCTION = 2 ^ 3 - 1 by norm_num [MASK_FUNCTION],
        Nat.and_pow_two_sub_one_eq_mod]
    simp only [SHIFT_FUNCTION, Nat.shiftRight_zero]
    norm_num
    omega
  rw [e1, e2, e3]

/-- C7: for every triple in `[0,256) × [0,32) × [0,8)` construction succeeds
and decoding returns exactly the input triple; any out-of-range triple makes
construction return the out-of-range error; and the iterator yields exactly
65536 distinct BDFs. -/
theorem C7_bdf_round_trip :
    (∀ bus < 256, ∀ device < 32, ∀ function < 8,
        bdf_decode (BusDeviceFunction.new bus device function) = some (bus, device, function))
    ∧ (∀ bus device function, 256 ≤ bus ∨ 32 ≤ device ∨ 8 ≤ function →
        BusDeviceFunction.new bus device function = .error "PciBusDeviceFunctionOutOfRange")
    ∧ BusDeviceFunction.iter.length = 65536
    ∧ BusDeviceFunction.iter.Nodup := by
  refine ⟨fun bus hb device hd function hf => bdf_round_trip_fields bus device function hb hd hf,
          ?_, by simp [BusDeviceFunction.iter], ?_⟩
  · intro bus device function h
    simp only [BusDeviceFunction.new, if_pos h]
  · exact (List.nodup_range 65536).map fun a b h => congrArg BusDeviceFunction.id h

/-- C7 witness: the round trip at `(1, 2, 3)` and the error at bus 256. -/
theorem C7_bdf_round_trip_witness :
    bdf_decode (BusDeviceFunction.new 1 2 3) = some (1, 2, 3)
    ∧ BusDeviceFunction.new 256 0 0 = .error "PciBusDeviceFunctionOutOfRange" :=
  ⟨C7_bdf_round_trip.1 1 (by decide) 2 (by decide) 3 (by decide),
   C7_bdf_round_trip.2.1 256 0 0 (Or.inl (by decide))⟩

/-! ## Graphics draw_point (`os/src/graphics.rs`, lines 8-75, 322-343)

`BitmapBuffer` carries the geometry used by the `Bitmap` trait methods; its
pixel buffer has `pixels_per_line * height * 4` bytes
(`BitmapBuffer::new`, graphics.rs line 340).  `draw_point` is embedded to
return the byte offset passed to the unchecked pixel write. -/

inductive GraphicsError where
  | OutOfRange
deriving DecidableEq, Repr

structure BitmapBuffer where
  width : Int
  height : Int
  pixels_per_line : Int
deriving DecidableEq, Repr

def BitmapBuffer.bytes_per_pixel (_ : BitmapBuffer) : Int := 4

def BitmapBuffer.buf_len (b : BitmapBuffer) : Int := b.pixels_per_line * b.height * 4

def BitmapBuffer.is_in_x_range (b : BitmapBuffer) (px : Int) : Bool :=
  decide (0 ≤ px ∧ px < min b.width b.pixels_per_line)

def BitmapBuffer.is_in_y_range (b : BitmapBuffer) (py : Int) : Bool :=
  decide (0 ≤ py ∧ py < b.height)

/-- The byte offset computed by `unchecked_pixel_at` (graphics.rs lines
28-32): `(y * pixels_per_line + x) * bytes_per_pixel`. -/
def BitmapBuffer.unchecked_pixel_offset (b : BitmapBuffer) (x y : Int) : Int :=
  (y * b.pixels_per_line + x) * b.bytes_per_pixel

/-- `draw_point` (graphics.rs lines 67-75).  The guard is the literal double
x-check of the source: `!buf.is_in_x_range(x) || !buf.is_in_x_range(x)`.
On success it performs the unchecked write at the returned offset. -/
def draw_point (b : BitmapBuffer) (_color : Nat) (x y : Int) : Except GraphicsError Int :=
  if !b.is_in_x_range x || !b.is_in_x_range x then .error .OutOfRange
  else .ok (b.unchecked_pixel_offset x y)

/-- The `(w = 17, h = 13, pitch = 19)` bitmap of the test suite. -/
def bm0 : BitmapBuffer := { width := 17, height := 13, pixels_per_line := 19 }

/-- C9: `draw_point` range-checks x twice and never y: it returns
`OutOfRange` exactly when x is outside the x-range, and for any in-range x it
proceeds to the unchecked pixel write even when y is outside `[0, height)`;
concretely, on the 17×13 bitmap with pitch 19 the point `(0, 13)` passes the
check and the write lands at byte offset 988, beyond the 988-byte buffer. -/
theorem C9_draw_point_checks_x_twice_never_y (b : BitmapBuffer) (color : Nat) (x y : Int) :
    (draw_point b color x y = .error .OutOfRange ↔ b.is_in_x_range x = false)
    ∧ (b.is_in_x_range x = true →
        draw_point b color x y = .ok (b.unchecked_pixel_offset x y))
    ∧ (bm0.is_in_x_range 0 = true ∧ bm0.is_in_y_range 13 = false
       ∧ draw_point bm0 0 0 13 = .ok 988
       ∧ ¬(0 ≤ (988 : Int) ∧ 988 + 4 ≤ bm0.buf_len)) := by
  refine ⟨?_, ?_, by decide⟩
  · cases hx : b.is_in_x_range x <;> simp [draw_point, hx]
  · intro hx
    simp [draw_point, hx]

/-- C9 witness: the general characterisation applied to `bm0` at `(0, 13)`. -/
theorem C9_draw_point_witness :
    draw_point bm0 0 0 13 = .ok (bm0.unchecked_pixel_offset 0 13) :=
  (C9_draw_point_checks_x_twice_never_y bm0 0 0 13).2.1 (by decide)

/-! ## DHCP reply handling (`os/src/net/manager.rs`, lines 53-192)

Only the fields read or written on the DHCP receive path are modelled.
`DhcpPacket` accessors and `IpV4Addr` are modelled from the spec
(`net/dhcp.rs` and `net/ip.rs` are not under src/); the option tag constants
are those of spec §6: MessageType=53, Netmask=1, Router=3, DNS=6, Padding=0,
End=255. -/

structure IpV4Addr where
  octets : List Nat
deriving DecidableEq, Repr

/-- Modelled from the spec: `IpV4Addr::from_slice` parses exactly 4 bytes. -/
def IpV4Addr.from_slice (data : List Nat) : Option IpV4Addr :=
  if data.length = 4 then some { octets := data } else none

def DHCP_OPT_MESSAGE_TYPE : Nat := 53
def DHCP_OPT_NETMASK : Nat := 1
def DHCP_OPT_ROUTER : Nat := 3
def DHCP_OPT_DNS : Nat := 6
def DHCP_OPT_MESSAGE_TYPE_PADDING : Nat := 0
def DHCP_OPT_MESSAGE_TYPE_END : Nat := 255

/-- The `Network` singleton fields set by the DHCP client
(manager.rs lines 53-121). -/
structure Network where
  netmask : Option IpV4Addr
  router : Option IpV4Addr
  dns : Option IpV4Addr
  self_ip : Option IpV4Addr
deriving DecidableEq, Repr

def Network.init : Network :=
  { netmask := none, router := none, dns := none, self_ip := none }

/-- Modelled from the spec: the `DhcpPacket` accessors used by
`handle_rx_dhcp_client` — `is_boot_reply()`, `yiaddr()`, and the option bytes
following the fixed-size packet header. -/
structure DhcpPacket where
  is_boot_reply : Bool
  yiaddr : IpV4Addr
  options : List Nat
deriving DecidableEq, Repr

/-- The option-parsing loop of `handle_rx_dhcp_client` (manager.rs lines
138-190), recursing on `fuel`, an upper bound on the number of remaining
option bytes (each iteration consumes at least one byte, so the loop is
structural in `fuel`).  Padding (0) is skipped; End (255) terminates; a
missing length byte or a zero length ends the loop; netmask/router/dns
options whose data parses as 4 bytes update the singleton; indexing
`data[0]` of an empty MessageType option is the Rust panic;
`it.advance_by(len)` failing because fewer than `len` bytes remain is the
"Invalid op data len" error, reported after the state updates already made. -/
def handle_dhcp_options_go : Nat → Network → List Nat → Network × Option String
  | 0, network, _ => (network, none)
  | _ + 1, network, [] => (network, none)
  | fuel + 1, network, op :: it =>
    if op = DHCP_OPT_MESSAGE_TYPE_PADDING then
      handle_dhcp_options_go fuel network it
    else if op = DHCP_OPT_MESSAGE_TYPE_END then
      (network, none)
    else
      match it with
      | [] => (network, none)
      | len :: it2 =>
        if len = 0 then (network, none)
        else
          let data := it2.take len
          if op = DHCP_OPT_MESSAGE_TYPE ∧ data = [] then
            (network, some "panic: index out of bounds")
          else
            let network :=
              if op = DHCP_OPT_NETMASK then
                match IpV4Addr.from_slice data with
                | some netmask => { network with netmask := some netmask }
                | none => network
              else if op = DHCP_OPT_ROUTER then
                match IpV4Addr.from_slice data with
                | some router => { network with router := some router }
                | none => network
              else if op = DHCP_OPT_DNS then
                match IpV4Addr.from_slice data with
                | some dns => { network with dns := some dns }
                | none => network
              else network
            if it2.length < len then (network, some "Invalid op data len")
            else handle_dhcp_options_go fuel network (it2.drop len)

/-- `handle_rx_dhcp_client` (manager.rs lines 124-192): ignore non-boot-reply
packets, set `self_ip` from `yiaddr`, then parse the options. -/
def handle_rx_dhcp_client (network : Network) (dhcp : DhcpPacket) : Network × Option String :=
  if !dhcp.is_boot_reply then (network, none)
  else
    handle_dhcp_options_go dhcp.options.length
      { network with self_ip := some dhcp.yiaddr } dhcp.options

/-- C8: during DHCP option parsing the Padding option (0) is skipped and the
End option (255) terminates parsing; and after processing the canonical boot
reply carrying netmask 255.255.255.0, router 10.0.2.2, dns 10.0.2.3 and
yiaddr 10.0.2.15, the Network singleton reports exactly those four values
(self-IP set from yiaddr). -/
theorem C8_dhcp_offer_parse :
    (∀ fuel network rest,
        handle_dhcp_options_go (fuel + 1) network (DHCP_OPT_MESSAGE_TYPE_PADDING :: rest)
          = handle_dhcp_options_go fuel network rest)
    ∧ (∀ fuel network rest,
        handle_dhcp_options_go (fuel + 1) network (DHCP_OPT_MESSAGE_TYPE_END :: rest)
          = (network, none))
    ∧ handle_rx_dhcp_client Network.init
        { is_boot_reply := true, yiaddr := { octets := [10, 0, 2, 15] },
          options := [53, 1, 2,
                      1, 4, 255, 255, 255, 0,
                      0,
                      3, 4, 10, 0, 2, 2,
                      6, 4, 10, 0, 2, 3,
                      255] }
        = ({ netmask := some { octets := [255, 255, 255, 0] },
             router := some { octets := [10, 0, 2, 2] },
             dns := some { octets := [10, 0, 2, 3] },
             self_ip := some { octets := [10, 0, 2, 15] } }, none) := by
  refine ⟨fun fuel network rest => by simp [handle_dhcp_options_go],
          fun fuel network rest => by simp [handle_dhcp_options_go,
            DHCP_OPT_MESSAGE_TYPE_PADDING, DHCP_OPT_MESSAGE_TYPE_END],
          by decide⟩

/-! ## First-fit allocator (`os/src/first_fit_allocator.rs`)

The free list is a chain of headers; each `Header` here carries its own
address explicitly (`self as *const Header as usize` in Rust), its size in
bytes including the header (a `u32` in Rust, hence the `% 2 ^ 32`
reductions), and the allocated flag.  The chain is the list in `next_header`
order. -/

def HEADER_SIZE : Nat := 16

/-- Fuel-bounded ceiling-halving recursion: the smallest power of two that is
at least `v` (1 for `v ≤ 1`); `fuel := v` always suffices. -/
def round_up_go : Nat → Nat → Nat
  | 0, _ => 1
  | fuel + 1, v => if v ≤ 1 then 1 else 2 * round_up_go fuel ((v + 1) / 2)

/-- Modelled from the spec: `round_up_to_nearest_pow2` (`crate::util`, not
under src/) rounds its argument up to the next power of two. -/
def round_up_to_nearest_pow2 (v : Nat) : Nat := round_up_go v v

structure Header where
  addr : Nat
  size : Nat
  is_allocated : Bool
deriving DecidableEq, Repr

/-- `Header::can_provide` (first_fit_allocator.rs lines 35-37):
`self.size() >= size + HEADER_SIZE * 3`. -/
def Header.can_provide (h : Header) (size _align : Nat) : Bool :=
  decide (size + HEADER_SIZE * 3 ≤ h.size)

/-- `Header::end_addr` (lines 44-46). -/
def Header.end_addr (h : Header) : Nat := h.addr + h.size

/-- `Header::provide` (lines 63-104).  `size` is rounded up to a power of two
and to at least `HEADER_SIZE`; `align` is raised to at least `HEADER_SIZE`;
an allocated or too-small header provides nothing.  Otherwise the allocation
is placed at the high end of the block, aligned down:
`allocated_addr = (end_addr - size) & !(align - 1)`, which over `Nat` is
`(end_addr - size) &&& (2 ^ 64 - align)`.  A header for the allocated region
is written `HEADER_SIZE` below `allocated_addr` with size `size + HEADER_SIZE`
(whose `u32` conversion via `try_into` fails for values `≥ 2 ^ 32`, making
`provide` return `None`); if the allocated header does not end exactly at
`end_addr` a free padding header covers the rest; finally the block shrinks
by the bytes used (a wrapping `u32` subtraction) and the chain is re-threaded
`self → allocated → padding? → old next`.  The returned list replaces `self`
in the chain. -/
def Header.provide (h : Header) (size align : Nat) : Option (Nat × List Header) :=
  let size := max (round_up_to_nearest_pow2 size) HEADER_SIZE
  let align := max align HEADER_SIZE
  if h.is_allocated || !(h.can_provide size align) then none
  else if size + HEADER_SIZE < 2 ^ 32 then
    let allocated_addr := (h.end_addr - size) &&& (2 ^ 64 - align)
    let header_for_allocated : Header :=
      { addr := allocated_addr - HEADER_SIZE, size := size + HEADER_SIZE, is_allocated := true }
    if header_for_allocated.end_addr != h.end_addr then
      let header_for_padding : Header :=
        { addr := header_for_allocated.end_addr,
          size := (h.end_addr - header_for_allocated.end_addr) % 2 ^ 32,
          is_allocated := false }
      let size_used := header_for_allocated.size + header_for_padding.size
      some (allocated_addr,
        [{ h with size := (h.size + 2 ^ 32 - size_used % 2 ^ 32) % 2 ^ 32 },
         header_for_allocated, header_for_padding])
    else
      some (allocated_addr,
        [{ h with size := (h.size + 2 ^ 32 - header_for_allocated.size % 2 ^ 32) % 2 ^ 32 },
         header_for_allocated])
  else none

/-- `FirstFitAllocator::alloc_with_options` (lines 135-153): walk the header
chain head-first, return the first successful `provide`; null (0) if no
header satisfies the request. -/
def alloc_with_options : List Header → Nat → Nat → Nat × List Header
  | [], _, _ => (0, [])
  | h :: rest, size, align =>
    match h.provide size align with
    | some ps => (ps.1, ps.2 ++ rest)
    | none =>
      let r := alloc_with_options rest size align
      (r.1, h :: r.2)

theorem round_up_go_pow2 (fuel v : Nat) : ∃ c, round_up_go fuel v = 2 ^ c := by
  induction fuel generalizing v with
  | zero => exact ⟨0, rfl⟩
  | succ fuel ih =>
    unfold round_up_go
    by_cases hv : v ≤ 1
    · exact ⟨0, by simp [hv]⟩
    · obtain ⟨c, hc⟩ := ih ((v + 1) / 2)
      refine ⟨c + 1, ?_⟩
      simp only [hv, if_false, hc]
      ring

/-- The effective size `max (round_up_to_nearest_pow2 size) HEADER_SIZE` is a
multiple of 16. -/
theorem effective_size_dvd16 (size : Nat) :
    2 ^ 4 ∣ max (round_up_to_nearest_pow2 size) HEADER_SIZE := by
  obtain ⟨c, hc⟩ := round_up_go_pow2 size size
  rw [round_up_to_nearest_pow2, hc]
  by_cases hc4 : c ≤ 4
  · have h1 : 2 ^ c ≤ 2 ^ 4 := Nat.pow_le_pow_right (by omega) hc4
    have h2 : max (2 ^ c) HEADER_SIZE = HEADER_SIZE := by
      have : (2 : Nat) ^ 4 = 16 := by norm_num
      simp [HEADER_SIZE]
      omega
    rw [h2]
    exact ⟨1, by norm_num [HEADER_SIZE]⟩
  · have h1 : HEADER_SIZE ≤ 2 ^ c := by
      calc HEADER_SIZE = 2 ^ 4 := by norm_num [HEADER_SIZE]
        _ ≤ 2 ^ c := Nat.pow_le_pow_right (by omega) (by omega)
    have h2 : max (2 ^ c) HEADER_SIZE = 2 ^ c := by omega
    rw [h2]
    exact pow_dvd_pow 2 (by omega)

theorem provide_eq_none {h : Header} {size align : Nat}
    (hfail : h.is_allocated = true
      ∨ h.size < max (round_up_to_nearest_pow2 size) HEADER_SIZE + HEADER_SIZE * 3) :
    h.provide size align = none := by
  unfold Header.provide
  rcases hfail with h1 | h1
  · simp [h1]
  · have hcp : h.can_provide (max (round_up_to_nearest_pow2 size) HEADER_SIZE)
        (max align HEADER_SIZE) = false := by
      simp only [Header.can_provide, decide_eq_false_iff_not]
      omega
    simp [hcp]

theorem provide_eq_some {h : Header} {size align : Nat}
    (hfree : h.is_allocated = false)
    (hbig : max (round_up_to_nearest_pow2 size) HEADER_SIZE + HEADER_SIZE * 3 ≤ h.size)
    (h32 : h.size < 2 ^ 32) :
    ∃ self tail,
      h.provide size align
        = some ((h.end_addr - max (round_up_to_nearest_pow2 size) HEADER_SIZE)
                  &&& (2 ^ 64 - max align HEADER_SIZE),
                self ::
                  { addr := ((h.end_addr - max (round_up_to_nearest_pow2 size) HEADER_SIZE)
                        &&& (2 ^ 64 - max align HEADER_SIZE)) - HEADER_SIZE,
                    size := max (round_up_to_nearest_pow2 size) HEADER_SIZE + HEADER_SIZE,
                    is_allocated := true } :: tail) := by
  have hcp : h.can_provide (max (round_up_to_nearest_pow2 size) HEADER_SIZE)
      (max align HEADER_SIZE) = true := by
    simp only [Header.can_provide, decide_eq_true_eq]
    omega
  have hHS : HEADER_SIZE = 16 := rfl
  have h16 : max (round_up_to_nearest_pow2 size) HEADER_SIZE + HEADER_SIZE < 2 ^ 32 := by
    omega
  unfold Header.provide
  simp only [hfree, hcp, Bool.not_true, Bool.or_false, Bool.false_or, if_false,
    Bool.false_eq_true, if_pos h16]
  split
  · exact ⟨_, _, rfl⟩
  · exact ⟨_, _, rfl⟩

theorem alloc_cons_some {h : Header} {size align p : Nat} {lst : List Header} (rest : List Header)
    (hp : h.provide size align = some (p, lst)) :
    alloc_with_options (h :: rest) size align = (p, lst ++ rest) := by
  simp [alloc_with_options, hp]

theorem alloc_skip {size align : Nat} (pre : List Header)
    (hpre : ∀ g ∈ pre, g.provide size align = none) (rest : List Header) :
    alloc_with_options (pre ++ rest) size align
      = ((alloc_with_options rest size align).1,
         pre ++ (alloc_with_options rest size align).2) := by
  induction pre with
  | nil => simp
  | cons g pre ih =>
    have hg := hpre g (by simp)
    simp only [List.cons_append, alloc_with_options, hg, List.append_eq]
    rw [ih fun g hgmem => hpre g (by simp [hgmem])]

/-- Conversion between the mask the code computes (`align` raised to at least
`HEADER_SIZE`) and the mask of the claim (`align` itself), valid on
16-aligned, in-range values. -/
theorem mask_align_eq (x k : Nat) (hdvd : 2 ^ 4 ∣ x) (hx : x < 2 ^ 64) :
    x &&& (2 ^ 64 - max (2 ^ k) HEADER_SIZE) = x &&& (2 ^ 64 - 2 ^ k) := by
  have hHS : HEADER_SIZE = 16 := rfl
  by_cases hk4 : k ≤ 4
  · have h0 : 2 ^ k ≤ 2 ^ 4 := Nat.pow_le_pow_right (by omega) hk4
    have h1 : max (2 ^ k) HEADER_SIZE = 2 ^ 4 := by
      have : (2 : Nat) ^ 4 = 16 := by norm_num
      omega
    rw [h1, land_two_pow_window_of_dvd x 64 4 (by omega) hdvd hx,
        land_two_pow_window_of_dvd x 64 k (by omega)
          (dvd_trans (pow_dvd_pow 2 hk4) hdvd) hx]
  · have h1 : max (2 ^ k) HEADER_SIZE = 2 ^ k := by
      have : (16 : Nat) ≤ 2 ^ k := by
        calc (16 : Nat) = 2 ^ 4 := by norm_num
          _ ≤ 2 ^ k := Nat.pow_le_pow_right (by omega) (by omega)
      omega
    rw [h1]

/-- C2: for every allocation request served from a free header, the allocator
chooses the first free header whose size is at least
`effective_size + 3 * HEADER_SIZE` (the effective size being the request
rounded up to a power of two and to at least 16), places the allocated region
at `(end_addr - effective_size) & !(align - 1)`, and writes an allocated
header 16 bytes below that address; if no header satisfies the request, alloc
returns null.  The hypotheses `h.size < 2 ^ 32` (header sizes are `u32`),
`16 ∣ h.end_addr` and `h.end_addr < 2 ^ 64` hold for every header the program
ever creates: initial headers span whole 4 KiB pages and splitting preserves
16-alignment of block ends. -/
theorem C2_alloc_first_fit (size align k : Nat) (hal : align = 2 ^ k) :
    (∀ hs : List Header,
        (∀ h ∈ hs, h.is_allocated = true
            ∨ h.size < max (round_up_to_nearest_pow2 size) HEADER_SIZE + HEADER_SIZE * 3) →
        (alloc_with_options hs size align).1 = 0)
    ∧ (∀ (pre post : List Header) (h : Header),
        (∀ g ∈ pre, g.is_allocated = true
            ∨ g.size < max (round_up_to_nearest_pow2 size) HEADER_SIZE + HEADER_SIZE * 3) →
        h.is_allocated = false →
        max (round_up_to_nearest_pow2 size) HEADER_SIZE + HEADER_SIZE * 3 ≤ h.size →
        h.size < 2 ^ 32 → h.end_addr % 16 = 0 → h.end_addr < 2 ^ 64 →
        (alloc_with_options (pre ++ h :: post) size align).1
            = (h.end_addr - max (round_up_to_nearest_pow2 size) HEADER_SIZE)
                &&& (2 ^ 64 - align)
        ∧ ∃ self tail,
            (alloc_with_options (pre ++ h :: post) size align).2
              = pre ++ self ::
                  { addr := (alloc_with_options (pre ++ h :: post) size align).1 - HEADER_SIZE,
                    size := max (round_up_to_nearest_pow2 size) HEADER_SIZE + HEADER_SIZE,
                    is_allocated := true } :: tail) := by
  constructor
  · intro hs hall
    induction hs with
    | nil => rfl
    | cons h rest ih =>
      have hn := @provide_eq_none h size align (hall h (by simp))
      simp only [alloc_with_options, hn]
      exact ih fun g hg => hall g (by simp [hg])
  · intro pre post h hpre hfree hbig h32 hal16 hlt64
    have hpre' : ∀ g ∈ pre, g.provide size align = none :=
      fun g hg => provide_eq_none (hpre g hg)
    obtain ⟨self, tail, hp⟩ := @provide_eq_some h size align hfree hbig h32
    have hdvd : 2 ^ 4 ∣ h.end_addr - max (round_up_to_nearest_pow2 size) HEADER_SIZE :=
      Nat.dvd_sub' (Nat.dvd_of_mod_eq_zero hal16) (effective_size_dvd16 size)
    have hxlt : h.end_addr - max (round_up_to_nearest_pow2 size) HEADER_SIZE < 2 ^ 64 :=
      Nat.lt_of_le_of_lt (Nat.sub_le _ _) hlt64
    have hmask := mask_align_eq (h.end_addr - max (round_up_to_nearest_pow2 size) HEADER_SIZE)
      k hdvd hxlt
    subst hal
    rw [alloc_skip pre hpre', alloc_cons_some post hp]
    exact ⟨hmask, self, tail ++ post, by simp [hmask]⟩

/-- C2 witness: with request `(size 100, align 4)` the too-small free header
(32 bytes) yields null, and a single 4 KiB free header at 4096 is split with
the allocation at `(8192 - 128) & !(4 - 1) = 8064`. -/
theorem C2_alloc_first_fit_witness :
    (alloc_with_options [{ addr := 4096, size := 32, is_allocated := false }] 100 4).1 = 0
    ∧ (alloc_with_options [{ addr := 4096, size := 4096, is_allocated := false }] 100 4).1
        = (8192 - 128) &&& (2 ^ 64 - 4) := by
  constructor
  · exact (C2_alloc_first_fit 100 4 2 rfl).1 _
      (by intro h hh; simp at hh; subst hh; right; decide)
  · have h2 := ((C2_alloc_first_fit 100 4 2 rfl).2 [] []
      { addr := 4096, size := 4096, is_allocated := false }
      (by simp) rfl (by decide) (by decide) (by decide) (by decide)).1
    simpa [Header.end_addr, show max (round_up_to_nearest_pow2 100) HEADER_SIZE = 128 by decide]
      using h2

theorem provide_some_aligned {h : Header} {size k p : Nat} {hs : List Header}
    (hp : h.provide size (2 ^ k) = some (p, hs)) : 2 ^ k ∣ p := by
  have hmax : max (2 ^ k) HEADER_SIZE = 2 ^ max k 4 := by
    have hHS : HEADER_SIZE = 16 := rfl
    by_cases hk4 : k ≤ 4
    · have h0 : 2 ^ k ≤ 2 ^ 4 := Nat.pow_le_pow_right (by omega) hk4
      have h1 : max k 4 = 4 := by omega
      rw [h1]
      have : (2 : Nat) ^ 4 = 16 := by norm_num
      omega
    · have h0 : (16 : Nat) ≤ 2 ^ k := by
        calc (16 : Nat) = 2 ^ 4 := by norm_num
          _ ≤ 2 ^ k := Nat.pow_le_pow_right (by omega) (by omega)
      have h1 : max k 4 = k := by omega
      rw [h1]
      omega
  simp only [Header.provide] at hp
  rw [hmax] at hp
  split at hp
  · cases hp
  · split at hp
    · split at hp
      · cases hp
        exact dvd_land_two_pow _ 64 (max k 4) k (Nat.le_max_left k 4)
      · cases hp
        exact dvd_land_two_pow _ 64 (max k 4) k (Nat.le_max_left k 4)
    · cases hp

theorem alloc_aligned (k : Nat) (hs : List Header) (size : Nat) :
    2 ^ k ∣ (alloc_with_options hs size (2 ^ k)).1 := by
  induction hs with
  | nil => simp [alloc_with_options]
  | cons h rest ih =>
    cases hp : h.provide size (2 ^ k) with
    | none => simpa [alloc_with_options, hp] using ih
    | some ps =>
      simp only [alloc_with_options, hp]
      exact @provide_some_aligned h size k ps.1 ps.2 (by rw [hp])

/-- `n` successive allocations with the same layout, collecting the returned
addresses and threading the heap. -/
def alloc_many : Nat → List Header → Nat → Nat → List Nat × List Header
  | 0, hs, _, _ => ([], hs)
  | n + 1, hs, size, align =>
    let r := alloc_with_options hs size align
    let rs := alloc_many n r.2 size align
    (r.1 :: rs.1, rs.2)

/-- The `malloc_align` test (first_fit_allocator.rs lines 211-224): for each
alignment in turn, 100 allocations of 1234 bytes, all expected non-null and
aligned; the heap state carries over from one alignment to the next. -/
def malloc_align_check : List Header → List Nat → Bool
  | _, [] => true
  | hs, align :: rest =>
    let r := alloc_many 100 hs 1234 align
    r.1.all (fun p => p != 0 && p % align == 0) && malloc_align_check r.2 rest

/-- C3: whenever the allocator is asked for a power-of-two alignment, the
returned address is a multiple of that alignment (trivially including the
null return); and the `malloc_align` test scenario — 100 successive
allocations of 1234 bytes at each alignment in {1, 2, 4, 8, 16, 32, 4096}
from a large free region — yields only non-null, align-multiple addresses. -/
theorem C3_alloc_alignment (k : Nat) :
    (∀ (hs : List Header) (size : Nat), 2 ^ k ∣ (alloc_with_options hs size (2 ^ k)).1)
    ∧ malloc_align_check [{ addr := 2 ^ 24, size := 2 ^ 26, is_allocated := false }]
        [1, 2, 4, 8, 16, 32, 4096] = true :=
  ⟨fun hs size => alloc_aligned k hs size, by decide⟩

/-- C3 witness: alignment `2 ^ 12 = 4096` divides the address returned for a
1234-byte request from a single large free header. -/
theorem C3_alloc_alignment_witness :
    2 ^ 12 ∣ (alloc_with_options [{ addr := 2 ^ 24, size := 2 ^ 26, is_allocated := false }]
        1234 (2 ^ 12)).1 :=
  (C3_alloc_alignment 12).1 _ 1234

end Wasabi
